import Mathlib

/-!
# Verification of the reactQuery-demo repository

A shallow embedding of the repository's own code: the `QueryClient`
configuration object (`src/main.tsx`), the query hooks `useTodoIds` and
`useTodos` (the `utils/queries` part of the sources), the `Todo` view
component, and the `RegisterForm` component with its validation rules
(`src/App.tsx`).  All caching / fetching behaviour belongs to the
third-party libraries (`@tanstack/react-query`, `react-hook-form`); those
are modelled at their documented interface: a query cache environment
resolving query keys to query states, and a rule evaluator for the form
validation rules the repository registers.
-/

namespace ReactQueryDemo

/-! ## QueryClient configuration (src/main.tsx) -/

/-- The shape of the `defaultOptions.queries` object handed to the
`QueryClient` constructor.  Times are in milliseconds. -/
structure QueryDefaultOptions where
  retry : Nat
  retryDelay : Nat
  refetchOnMount : Bool
  staleTime : Nat
  refetchOnReconnect : Bool
  refetchOnWindowFocus : Bool
deriving DecidableEq, Repr

/-- The configuration object built in `src/main.tsx` and passed to
`new QueryClient({...})`.  Transcribed field by field from the source. -/
def queryClientDefaults : QueryDefaultOptions :=
  { retry := 5
    retryDelay := 1000
    refetchOnMount := false
    staleTime := 1000 * 60 * 5
    refetchOnReconnect := true
    refetchOnWindowFocus := true }

/-! ## The remote API surface (imported from `./api`, used in `utils/queries`) -/

/-- A call into the `api` module.  `getTodo`'s argument is `Option Nat`
because the TypeScript parameter has type `number | undefined` at the
call site (`id!` is only a compile-time assertion and passes the raw
value through at runtime). -/
inductive ApiCall where
  | getTodosIds
  | getTodo (id : Option Nat)
deriving DecidableEq, Repr

/-- One component of a react-query `queryKey` array. -/
inductive KeyPart where
  | str (s : String)
  | num (n : Option Nat)
deriving DecidableEq, Repr

/-- The object the repository passes to `useQuery` / into the `queries`
array of `useQueries`: a query key plus the api call its `queryFn`
performs. -/
structure TodoQueryDef where
  queryKey : List KeyPart
  call : ApiCall
deriving DecidableEq, Repr

/-- The argument `useTodoIds` passes to `useQuery`:
`{ queryKey: ['todos'], queryFn: getTodosIds }`. -/
def useTodoIdsDef : TodoQueryDef :=
  { queryKey := [KeyPart.str "todos"], call := ApiCall.getTodosIds }

/-- The query built for one id inside `useTodos`:
`{ queryKey: ["todo", id], queryFn: () => getTodo(id!) }`. -/
def mkTodoQueryDef (id : Option Nat) : TodoQueryDef :=
  { queryKey := [KeyPart.str "todo", KeyPart.num id], call := ApiCall.getTodo id }

/-- The `queries` array `useTodos` hands to `useQueries`:
`(ids ?? []).map(id => ({ queryKey: ["todo", id], queryFn: () => getTodo(id!) }))`.
The outer `Option` models the `| undefined` in the parameter type, the
inner ones the `number | undefined` elements. -/
def useTodosDefs (ids : Option (List (Option Nat))) : List TodoQueryDef :=
  (ids.getD []).map mkTodoQueryDef

/-! ## Model of the fetching library's result objects

`@tanstack/react-query` is an external dependency; the repository only
consumes the result objects its hooks return.  A result is modelled by
the three fields the repository reads: `isPending`, `isError`, `data`. -/

/-- The fields of a `useQuery` result object that the repository reads. -/
structure UseQueryResult (α : Type) where
  isPending : Bool
  isError : Bool
  data : Option α
deriving DecidableEq, Repr

/-- A todo object as rendered by the `Todo` component (`data?.id`,
`data?.title`, `data?.completed`). -/
structure TodoItem where
  id : Nat
  title : String
  completed : Bool
deriving DecidableEq, Repr

/-- The state of the library at one render: what each of the two query
shapes the repository registers currently resolves to.  `resolveIds`
answers the `['todos']` query, `resolveTodo` the `["todo", id]`
queries.  A `LibEnv` is the delegation boundary: everything behind it is
the third-party library. -/
structure LibEnv where
  resolveIds : TodoQueryDef → UseQueryResult (List Nat)
  resolveTodo : TodoQueryDef → UseQueryResult TodoItem

/-- Model of the library hook `useQuery` at the list-of-ids type. -/
def useQueryM (env : LibEnv) (q : TodoQueryDef) : UseQueryResult (List Nat) :=
  env.resolveIds q

/-- Model of the library hook `useQueries`: one result per entry of the
`queries` array, positionally. -/
def useQueriesM (env : LibEnv) (qs : List TodoQueryDef) :
    List (UseQueryResult TodoItem) :=
  qs.map env.resolveTodo

/-- `useTodoIds` from `utils/queries`: `useQuery` applied to the
configuration `useTodoIdsDef`. -/
def useTodoIds (env : LibEnv) : UseQueryResult (List Nat) :=
  useQueryM env useTodoIdsDef

/-- `useTodos` from `utils/queries`: `useQueries` applied to the
`queries` array built from `ids`. -/
def useTodos (env : LibEnv) (ids : Option (List (Option Nat))) :
    List (UseQueryResult TodoItem) :=
  useQueriesM env (useTodosDefs ids)

/-! ## The `Todo` component -/

/-- The markup the `Todo` component can produce: the early `Loading...`
return, the early `Error occurred...` return, or the fragment with one
`Todo ID: {id}` div per id of `todosIdsQuery.data` (nothing when `data`
is `undefined`, because of the `?.`) followed by one `li` per entry of
`todoQueries`, carrying that query's `data`. -/
inductive TodoRender where
  | loading
  | errorView
  | content (idDivs : Option (List Nat)) (items : List (Option TodoItem))
deriving DecidableEq, Repr

/-- The pure rendering logic of `Todo`, as a function of the two hook
results it reads. -/
def renderTodo (idsQ : UseQueryResult (List Nat))
    (todoQs : List (UseQueryResult TodoItem)) : TodoRender :=
  if idsQ.isPending then TodoRender.loading
  else if idsQ.isError then TodoRender.errorView
  else TodoRender.content idsQ.data (todoQs.map (fun q => q.data))

/-- The `Todo` component: call `useTodoIds`, feed its `data` into
`useTodos` (TypeScript silently widens `number[]` to
`(number | undefined)[]`, modelled by `List.map some`), then render. -/
def TodoComponent (env : LibEnv) : TodoRender :=
  let todosIdsQuery := useTodoIds env
  let todoQueries := useTodos env (todosIdsQuery.data.map (fun l => l.map some))
  renderTodo todosIdsQuery todoQueries

/-! ## Operational model of `useQueries` scheduling

For the concurrency claim the library's fetch scheduling is made
explicit: each entry of the `queries` array is fetched at some point of
a completion schedule, in an order the library alone decides; the
repository only supplies the array.  `fetch` gives the (deterministic)
outcome of a `getTodo` call. -/

/-- The outcome of `getTodo id` — the value the remote API returns for
that id.  Abstract: any such assignment. -/
def FetchEnv : Type := Option Nat → TodoItem

/-- Result of the api call of one query definition under a fetch
environment. -/
def runCall (fetch : FetchEnv) (q : TodoQueryDef) : Option TodoItem :=
  match q.call with
  | ApiCall.getTodosIds => none
  | ApiCall.getTodo id => some (fetch id)

/-- One completion step: query number `i` of the array finishes and its
slot of the result cache is filled. -/
def stepFill (fetch : FetchEnv) (qs : List TodoQueryDef)
    (cache : List (Option TodoItem)) (i : Nat) : List (Option TodoItem) :=
  match qs[i]? with
  | some q => cache.set i (runCall fetch q)
  | none => cache

/-- Run a completion schedule (a list of query indices, in the order the
library happens to finish them) starting from an empty cache. -/
def runSchedule (fetch : FetchEnv) (qs : List TodoQueryDef)
    (sched : List Nat) : List (Option TodoItem) :=
  sched.foldl (stepFill fetch qs) (List.replicate qs.length none)

/-! ## The `RegisterForm` component (src/App.tsx)

`react-hook-form` is the second external dependency.  The repository
registers four fields with validation rules; `handleSubmit(onSubmit)`
runs the rules and calls `onSubmit` only when every rule holds,
otherwise it fills `formState.errors` with each failing field's first
failing rule's message (the library's documented `firstError` mode,
rules checked in the order required, min, minLength, pattern). -/

/-- Side effects, for describing what `onSubmit` does.  `networkRequest`
is listed so that its absence from `onSubmit` is a statement, not a
typing accident. -/
inductive Effect where
  | consoleLog (msg : String)
  | sleep (ms : Nat)
  | alert (msg : String)
  | resetForm
  | networkRequest (call : ApiCall)
deriving DecidableEq, Repr

/-- The effect trace of the `onSubmit` handler of `RegisterForm`:
log, await a 1500 ms timeout ("Simulate backend call"), alert, reset. -/
def onSubmitEffects : List Effect :=
  [Effect.consoleLog "Form submitted:",
   Effect.sleep 1500,
   Effect.alert "User Registered Successfully!",
   Effect.resetForm]

/-- The values of the form's fields at submit time.  `age` is the result
of the `valueAsNumber` conversion of the number input: `none` models a
missing value (empty input / NaN), `some n` a parsed number. -/
structure FormValues where
  name : String
  email : String
  password : String
  age : Option Int
deriving DecidableEq, Repr

/-- Executable matcher for the email pattern of the source,
`/^[^@]+@[^@]+\.[^@]+$/`: one `@` with a nonempty `@`-free part before
it, and after it an `@`-free part containing a `.` that has at least
one character on each side. -/
def emailMatch (s : String) : Bool :=
  match s.toList.dropWhile (fun c => c ≠ '@') with
  | [] => false
  | _ :: t =>
    decide (s.toList.takeWhile (fun c => c ≠ '@') ≠ []) &&
      !(t.contains '@') && ((t.drop 1).dropLast.contains '.')

/-- Declarative reading of the regular expression
`/^[^@]+@[^@]+\.[^@]+$/`: the string splits as `a ++ "@" ++ b ++ "." ++ c`
with `a`, `b`, `c` nonempty and free of `@`. -/
def EmailSpec (s : String) : Prop :=
  ∃ a b c : List Char,
    a ≠ [] ∧ b ≠ [] ∧ c ≠ [] ∧
    '@' ∉ a ∧ '@' ∉ b ∧ '@' ∉ c ∧
    s.toList = a ++ '@' :: (b ++ '.' :: c)

/-- The rules registered on the `name` input:
`required: "Name is required"`, `minLength: 3` with
`"Name must be at least 3 characters"`. -/
def validateName (s : String) : Option String :=
  if s = "" then some "Name is required"
  else if s.length < 3 then some "Name must be at least 3 characters"
  else none

/-- The rules registered on the `email` input:
`required: "Email is required"`, the pattern with `"Enter a valid email"`. -/
def validateEmail (s : String) : Option String :=
  if s = "" then some "Email is required"
  else if !emailMatch s then some "Enter a valid email"
  else none

/-- The rules registered on the `password` input:
`required: "Password is required"`, `minLength: 6` with
`"Password must be 6+ characters"`. -/
def validatePassword (s : String) : Option String :=
  if s = "" then some "Password is required"
  else if s.length < 6 then some "Password must be 6+ characters"
  else none

/-- The rules registered on the `age` input: `valueAsNumber`,
`required: "Age is required"`, `min: 18` with `"Must be 18 or older"`. -/
def validateAge (a : Option Int) : Option String :=
  match a with
  | none => some "Age is required"
  | some n => if n < 18 then some "Must be 18 or older" else none

/-- The per-field error messages, as they appear in `formState.errors`. -/
structure FormErrors where
  name : Option String
  email : Option String
  password : Option String
  age : Option String
deriving DecidableEq, Repr

/-- Run every field's rules, per the library's documented behaviour. -/
def validateForm (v : FormValues) : FormErrors :=
  { name := validateName v.name
    email := validateEmail v.email
    password := validatePassword v.password
    age := validateAge v.age }

/-- `formState.errors` is non-empty. -/
def hasErrors (e : FormErrors) : Bool :=
  e.name.isSome || e.email.isSome || e.password.isSome || e.age.isSome

/-- `handleSubmit(onSubmit)`'s decision: the success handler runs only
when validation produces no errors. -/
def submitInvokesHandler (v : FormValues) : Bool :=
  !hasErrors (validateForm v)

/-- What `handleSubmit(onSubmit)` does on a submit event with values
`v`: either the `onSubmit` effect trace, or the errors to render. -/
def handleSubmitModel (v : FormValues) : List Effect ⊕ FormErrors :=
  if submitInvokesHandler v then Sum.inl onSubmitEffects
  else Sum.inr (validateForm v)

/-- The hook-derived state `RegisterForm` reads from `useForm`:
`formState.errors`, `formState.isSubmitting`, and `watch("email")`. -/
structure FormStateView where
  errors : FormErrors
  isSubmitting : Bool
  currentEmail : String
deriving DecidableEq, Repr

/-- The data-bearing parts of the markup `RegisterForm` returns: the
error paragraph of each field (present exactly when the field has an
error), the submit button's label and disabled flag, and the
`Watching email:` helper text (`currentEmail || "none"`). -/
structure RegisterRender where
  nameError : Option String
  emailError : Option String
  passwordError : Option String
  ageError : Option String
  buttonLabel : String
  buttonDisabled : Bool
  watching : String
deriving DecidableEq, Repr

/-- The pure rendering logic of `RegisterForm`, as a function of the
values it reads from the `useForm` hook. -/
def renderRegisterForm (fs : FormStateView) : RegisterRender :=
  { nameError := fs.errors.name
    emailError := fs.errors.email
    passwordError := fs.errors.password
    ageError := fs.errors.age
    buttonLabel := if fs.isSubmitting then "Submitting..." else "Register"
    buttonDisabled := fs.isSubmitting
    watching := if fs.currentEmail = "" then "none" else fs.currentEmail }

/-- The `useForm` hook state after a failed validation pass over values
`v`, while not submitting. -/
def formHookState (v : FormValues) : FormStateView :=
  { errors := validateForm v
    isSubmitting := false
    currentEmail := v.email }

/-- The `RegisterForm` component as rendered over the current field
values: the `useForm` hook state, passed to the pure render. -/
def RegisterFormComponent (v : FormValues) : RegisterRender :=
  renderRegisterForm (formHookState v)

/-! ## Claim theorems -/

/-- C1: all caching/retry/stale-time/background-refetch behaviour is
delegated through the configuration object passed to the `QueryClient`,
whose defaults are exactly retry = 5, retryDelay = 1000 ms,
staleTime = 1000*60*5 ms (= 300000 ms), refetchOnMount = false,
refetchOnReconnect = true, refetchOnWindowFocus = true.  The embedding
contains no repository-defined caching, retrying or refetching logic:
`queryClientDefaults` is the only place these behaviours are touched. -/
theorem C1_queryClient_defaults :
    queryClientDefaults.retry = 5 ∧
    queryClientDefaults.retryDelay = 1000 ∧
    queryClientDefaults.staleTime = 1000 * 60 * 5 ∧
    queryClientDefaults.staleTime = 300000 ∧
    queryClientDefaults.refetchOnMount = false ∧
    queryClientDefaults.refetchOnReconnect = true ∧
    queryClientDefaults.refetchOnWindowFocus = true := by
  refine ⟨rfl, rfl, rfl, ?_, rfl, rfl, rfl⟩
  decide

/-- C4: the only remote-API interaction supplied by repository code is
the query call sites — `useTodoIds`'s query runs `getTodosIds` and each
`useTodos` query runs `getTodo` on its id — while the registration
form's submit handler performs no network request: its effect trace is
exactly a console log, a 1500 ms timeout, an alert, and a form reset. -/
theorem C4_network_surface :
    useTodoIdsDef.call = ApiCall.getTodosIds ∧
    (∀ ids : List (Option Nat),
      (useTodosDefs (some ids)).map (fun q => q.call) = ids.map ApiCall.getTodo) ∧
    onSubmitEffects =
      [Effect.consoleLog "Form submitted:", Effect.sleep 1500,
       Effect.alert "User Registered Successfully!", Effect.resetForm] ∧
    (∀ e ∈ onSubmitEffects, ∀ c : ApiCall, e ≠ Effect.networkRequest c) := by
  refine ⟨rfl, ?_, rfl, ?_⟩
  · intro ids
    simp [useTodosDefs, mkTodoQueryDef]
  · intro e he c h
    subst h
    simp [onSubmitEffects] at he

/-- C4 witness: a concrete element of the `onSubmit` effect trace is not
a network request. -/
theorem C4_network_surface_witness :
    Effect.sleep 1500 ∈ onSubmitEffects ∧
    Effect.sleep 1500 ≠ Effect.networkRequest (ApiCall.getTodo (some 1)) :=
  ⟨by decide, C4_network_surface.2.2.2 (Effect.sleep 1500) (by decide)
    (ApiCall.getTodo (some 1))⟩

/-- C7: `useTodos` is total on its optional argument and treats a
missing list as empty — `useTodos(undefined)` registers the same
queries as `useTodos([])`, namely none — and for a defined list it
registers exactly one query per element, in input order, with query key
`["todo", id]` and a query function calling `getTodo` on that element,
also when the element is `undefined`. -/
theorem C7_useTodos_total :
    useTodosDefs none = useTodosDefs (some []) ∧
    useTodosDefs none = [] ∧
    (∀ ids : List (Option Nat),
      (useTodosDefs (some ids)).length = ids.length ∧
      ∀ (i : Nat) (id0 : Option Nat), ids[i]? = some id0 →
        (useTodosDefs (some ids))[i]? =
          some { queryKey := [KeyPart.str "todo", KeyPart.num id0],
                 call := ApiCall.getTodo id0 }) := by
  refine ⟨rfl, rfl, fun ids => ⟨by simp [useTodosDefs], ?_⟩⟩
  intro i id0 h
  simp [useTodosDefs, List.getElem?_map, h, mkTodoQueryDef]

/-- C7 witness: at the concrete list `[some 2, none]`, element 1 is the
`undefined` id and its query still calls `getTodo` on it. -/
theorem C7_useTodos_total_witness :
    [some 2, none][1]? = some (none : Option Nat) ∧
    (useTodosDefs (some [some 2, none]))[1]? =
      some { queryKey := [KeyPart.str "todo", KeyPart.num none],
             call := ApiCall.getTodo none } :=
  ⟨by decide, ((C7_useTodos_total.2.2 [some 2, none]).2 1 none (by decide))⟩

/-- C8: the `Todo` component's rendering is decided exclusively by the
ids query's state — `Loading...` iff it is pending; otherwise
`Error occurred...` iff it is in error; otherwise one `Todo ID` div per
fetched id in fetched order followed by one list item per per-todo query
in the same order, built from that query's data. -/
theorem C8_todo_render :
    ∀ (idsQ : UseQueryResult (List Nat)) (todoQs : List (UseQueryResult TodoItem)),
      (renderTodo idsQ todoQs = TodoRender.loading ↔ idsQ.isPending = true) ∧
      (idsQ.isPending = false →
        (renderTodo idsQ todoQs = TodoRender.errorView ↔ idsQ.isError = true)) ∧
      (idsQ.isPending = false → idsQ.isError = false →
        renderTodo idsQ todoQs =
          TodoRender.content idsQ.data (todoQs.map (fun q => q.data))) := by
  intro idsQ todoQs
  rcases hp : idsQ.isPending <;> rcases he : idsQ.isError <;>
    simp [renderTodo, hp, he]

/-- C8 witness: a settled, error-free ids query with two ids and one
per-todo result renders the content branch. -/
theorem C8_todo_render_witness :
    renderTodo ⟨false, false, some [1, 2]⟩ [⟨false, false, some ⟨1, "a", true⟩⟩] =
      TodoRender.content (some [1, 2]) [some ⟨1, "a", true⟩] :=
  (C8_todo_render ⟨false, false, some [1, 2]⟩
    [⟨false, false, some ⟨1, "a", true⟩⟩]).2.2 rfl rfl

/-- C2: both view components behave by calling hooks from the libraries
and rendering markup from the values those hooks return: `Todo` is the
pure render `renderTodo` applied to the outputs of `useTodoIds` and
`useTodos`, `RegisterForm` is the pure render `renderRegisterForm`
applied to the `useForm` state, and a component's output is determined
by its hooks' outputs alone. -/
theorem C2_components_use_hooks :
    (∀ env : LibEnv,
      TodoComponent env =
        renderTodo (useTodoIds env)
          (useTodos env ((useTodoIds env).data.map (fun l => l.map some)))) ∧
    (∀ v : FormValues,
      RegisterFormComponent v = renderRegisterForm (formHookState v)) ∧
    (∀ env₁ env₂ : LibEnv,
      useTodoIds env₁ = useTodoIds env₂ →
      (∀ ids, useTodos env₁ ids = useTodos env₂ ids) →
      TodoComponent env₁ = TodoComponent env₂) := by
  refine ⟨fun env => rfl, fun v => rfl, ?_⟩
  intro env₁ env₂ hids htodos
  unfold TodoComponent
  simp only [hids, htodos]

/-- C2 witness: at a concrete library environment the determinism
conjunct applies with both hypotheses discharged definitionally. -/
theorem C2_components_use_hooks_witness :
    TodoComponent
        ⟨fun _ => ⟨false, false, some [7]⟩, fun _ => ⟨false, false, none⟩⟩ =
      TodoComponent
        ⟨fun _ => ⟨false, false, some [7]⟩, fun _ => ⟨false, false, none⟩⟩ :=
  C2_components_use_hooks.2.2
    ⟨fun _ => ⟨false, false, some [7]⟩, fun _ => ⟨false, false, none⟩⟩
    ⟨fun _ => ⟨false, false, some [7]⟩, fun _ => ⟨false, false, none⟩⟩
    rfl (fun _ => rfl)

/-- C3: every definition the repository exports is a configuration
value, a composition of library hooks over its inputs, or pure
rendering: `queryClientDefaults` is the literal configuration record,
`useTodoIds` and `useTodos` are the library hooks applied to pure query
descriptions of their inputs, and the two components are pure renders
of hook outputs. -/
theorem C3_exports_shape :
    queryClientDefaults =
      { retry := 5, retryDelay := 1000, refetchOnMount := false,
        staleTime := 300000, refetchOnReconnect := true,
        refetchOnWindowFocus := true } ∧
    (∀ env : LibEnv, useTodoIds env = useQueryM env useTodoIdsDef) ∧
    (∀ (env : LibEnv) (ids : Option (List (Option Nat))),
      useTodos env ids = useQueriesM env (useTodosDefs ids)) ∧
    (∀ ids : Option (List (Option Nat)),
      useTodosDefs ids = (ids.getD []).map mkTodoQueryDef) ∧
    (∀ env : LibEnv,
      TodoComponent env =
        renderTodo (useTodoIds env)
          (useTodos env ((useTodoIds env).data.map (fun l => l.map some)))) ∧
    (∀ v : FormValues,
      RegisterFormComponent v = renderRegisterForm (formHookState v)) := by
  exact ⟨by decide, fun env => rfl, fun env ids => rfl, fun ids => rfl,
    fun env => rfl, fun v => rfl⟩

/-! ### Helper lemmas for the email pattern -/

/-- The head of a non-null `dropWhile` fails the predicate. -/
theorem dropWhile_head_false {α : Type} {p : α → Bool} :
    ∀ (l : List α) {x : α} {t : List α}, l.dropWhile p = x :: t → p x = false := by
  intro l
  induction l with
  | nil => intro x t h; simp [List.dropWhile] at h
  | cons a l ih =>
    intro x t h
    rw [List.dropWhile_cons] at h
    by_cases hp : p a = true
    · rw [if_pos hp] at h; exact ih h
    · rw [if_neg hp] at h
      cases h
      simpa using hp

/-- `takeWhile` and `dropWhile` of a list that starts with a block of
satisfiers followed by a failing element. -/
theorem takeWhile_dropWhile_of_block {α : Type} {p : α → Bool} :
    ∀ (a : List α) (y : α) (r : List α), (∀ x ∈ a, p x = true) → p y = false →
      (a ++ y :: r).takeWhile p = a ∧ (a ++ y :: r).dropWhile p = y :: r := by
  intro a
  induction a with
  | nil =>
    intro y r _ hy
    constructor <;> simp [List.takeWhile_cons, List.dropWhile_cons, hy]
  | cons x a ih =>
    intro y r hall hy
    have hx : p x = true := hall x (List.mem_cons_self x a)
    obtain ⟨h1, h2⟩ := ih y r (fun z hz => hall z (List.mem_cons_of_mem _ hz)) hy
    simp [List.takeWhile_cons, List.dropWhile_cons, hx, h1, h2]

/-- The `(t.drop 1).dropLast` test finds exactly the dots that have at
least one character on each side inside `t`. -/
theorem innerDot_iff (t : List Char) :
    ((t.drop 1).dropLast.contains '.') = true ↔
      ∃ b c : List Char, b ≠ [] ∧ c ≠ [] ∧ t = b ++ '.' :: c := by
  constructor
  · intro h
    have hm : '.' ∈ (t.drop 1).dropLast := by simpa using h
    cases t with
    | nil => simp at hm
    | cons x t0 =>
      have hm' : '.' ∈ t0.dropLast := by simpa using hm
      have ht0 : t0 ≠ [] := by rintro rfl; simp at hm'
      obtain ⟨u, w, huw⟩ := List.append_of_mem hm'
      refine ⟨x :: u, w ++ [t0.getLast ht0], by simp, by simp, ?_⟩
      conv_lhs => rw [← List.dropLast_append_getLast ht0, huw]
      simp
  · rintro ⟨b, c, hb, hc, rfl⟩
    cases b with
    | nil => exact absurd rfl hb
    | cons x b0 =>
      cases c with
      | nil => exact absurd rfl hc
      | cons y c0 =>
        simp [List.dropLast_append_of_ne_nil]

/-- The executable matcher agrees with the declarative reading of the
regular expression `/^[^@]+@[^@]+\.[^@]+$/`. -/
theorem emailMatch_iff (s : String) : emailMatch s = true ↔ EmailSpec s := by
  unfold emailMatch EmailSpec
  constructor
  · intro h
    split at h
    · exact absurd h (by simp)
    · rename_i x t hd
      rw [Bool.and_assoc, Bool.and_eq_true] at h
      obtain ⟨hpre, hrest⟩ := h
      rw [Bool.and_eq_true] at hrest
      obtain ⟨hat, hdot⟩ := hrest
      have hx : x = '@' := by
        have := dropWhile_head_false _ hd
        simpa using this
      obtain ⟨b, c, hb, hc, ht⟩ := (innerDot_iff t).mp hdot
      have hkey := List.takeWhile_append_dropWhile (fun c => decide (c ≠ '@')) s.toList
      have hnt : '@' ∉ t := by
        intro hmem
        have : t.contains '@' = true := by simpa using hmem
        rw [this] at hat
        simp at hat
      refine ⟨s.toList.takeWhile (fun c => decide (c ≠ '@')), b, c, ?_, hb, hc, ?_, ?_, ?_, ?_⟩
      · simpa using hpre
      · intro hmem
        have := List.mem_takeWhile_imp hmem
        simp at this
      · exact fun hmem => hnt (ht ▸ List.mem_append_left _ hmem)
      · exact fun hmem => hnt (ht ▸ List.mem_append_right _ (List.mem_cons_of_mem _ hmem))
      · conv_lhs => rw [← hkey]
        rw [hd, hx, ht]
  · rintro ⟨a, b, c, ha, hb, hc, hna, hnb, hnc, hs⟩
    have hall : ∀ z ∈ a, (fun ch => decide (ch ≠ '@')) z = true := by
      intro z hz
      simp only [decide_eq_true_eq]
      exact fun e => hna (e ▸ hz)
    obtain ⟨htake, hdrop⟩ :=
      takeWhile_dropWhile_of_block a '@' (b ++ '.' :: c) hall (by simp)
    rw [hs]
    split
    · rename_i hd
      rw [hdrop] at hd
      cases hd
    · rename_i x t hd
      rw [hdrop] at hd
      injection hd with hd1 hd2
      subst hd2
      rw [htake]
      rw [Bool.and_eq_true, Bool.and_eq_true]
      refine ⟨⟨by simpa using ha, ?_⟩, ?_⟩
      · have : '@' ∉ b ++ '.' :: c := by
          intro hmem
          rcases List.mem_append.mp hmem with hm | hm
          · exact hnb hm
          · rcases List.mem_cons.mp hm with hm' | hm'
            · cases hm'
            · exact hnc hm'
        simpa using this
      · exact (innerDot_iff _).mpr ⟨b, c, hb, hc, rfl⟩

/-! ### Helper lemmas for the validation rules -/

/-- `name` passes its rules iff it is present with length at least 3. -/
theorem validateName_none_iff (s : String) :
    validateName s = none ↔ (s ≠ "" ∧ 3 ≤ s.length) := by
  unfold validateName
  split_ifs with h1 h2
  · simp [h1]
  · simp [h1]; omega
  · simp [h1]; omega

/-- `email` passes its rules iff it is present and matches the pattern. -/
theorem validateEmail_none_iff (s : String) :
    validateEmail s = none ↔ (s ≠ "" ∧ EmailSpec s) := by
  unfold validateEmail
  rw [← emailMatch_iff s]
  split_ifs with h1 h2
  · simp [h1]
  · have hm : emailMatch s = false := by simpa using h2
    simp [h1, hm]
  · have hm : emailMatch s = true := by simpa using h2
    simp [h1, hm]

/-- `password` passes its rules iff it is present with length ≥ 6. -/
theorem validatePassword_none_iff (s : String) :
    validatePassword s = none ↔ (s ≠ "" ∧ 6 ≤ s.length) := by
  unfold validatePassword
  split_ifs with h1 h2
  · simp [h1]
  · simp [h1]; omega
  · simp [h1]; omega

/-- `age` passes its rules iff it is a parsed number that is ≥ 18. -/
theorem validateAge_none_iff (a : Option Int) :
    validateAge a = none ↔ (∃ n, a = some n ∧ 18 ≤ n) := by
  cases a with
  | none => simp [validateAge]
  | some n =>
    simp only [validateAge, Option.some.injEq]
    split_ifs with h
    · constructor
      · intro hh; cases hh
      · rintro ⟨m, rfl, hm⟩; omega
    · constructor
      · intro _; exact ⟨n, rfl, by omega⟩
      · intro _; rfl

/-- `formState.errors` is empty iff every field validated. -/
theorem hasErrors_false_iff (e : FormErrors) :
    hasErrors e = false ↔
      (e.name = none ∧ e.email = none ∧ e.password = none ∧ e.age = none) := by
  unfold hasErrors
  rcases e with ⟨n, m, p, a⟩
  cases n <;> cases m <;> cases p <;> cases a <;> simp

/-- C6: the success handler `onSubmit` runs exactly when every
validation rule holds — name present with ≥ 3 characters, email present
and matching `/^[^@]+@[^@]+\.[^@]+$/`, password present with ≥ 6
characters, age present as a number ≥ 18 — and when a rule fails,
`onSubmit` does not run and the corresponding message is in the
rendered errors. -/
theorem C6_register_validation :
    ∀ v : FormValues,
      (submitInvokesHandler v = true ↔
        ((v.name ≠ "" ∧ 3 ≤ v.name.length) ∧
         (v.email ≠ "" ∧ EmailSpec v.email) ∧
         (v.password ≠ "" ∧ 6 ≤ v.password.length) ∧
         (∃ n, v.age = some n ∧ 18 ≤ n))) ∧
      (submitInvokesHandler v = true → handleSubmitModel v = Sum.inl onSubmitEffects) ∧
      (submitInvokesHandler v = false →
        handleSubmitModel v = Sum.inr (validateForm v)) ∧
      (v.name = "" → (RegisterFormComponent v).nameError = some "Name is required") ∧
      (v.name ≠ "" → v.name.length < 3 →
        (RegisterFormComponent v).nameError = some "Name must be at least 3 characters") ∧
      (v.email = "" → (RegisterFormComponent v).emailError = some "Email is required") ∧
      (v.email ≠ "" → ¬ EmailSpec v.email →
        (RegisterFormComponent v).emailError = some "Enter a valid email") ∧
      (v.password = "" →
        (RegisterFormComponent v).passwordError = some "Password is required") ∧
      (v.password ≠ "" → v.password.length < 6 →
        (RegisterFormComponent v).passwordError = some "Password must be 6+ characters") ∧
      (v.age = none → (RegisterFormComponent v).ageError = some "Age is required") ∧
      (∀ n : Int, v.age = some n → n < 18 →
        (RegisterFormComponent v).ageError = some "Must be 18 or older") := by
  intro v
  have hiff : submitInvokesHandler v = true ↔
      (validateName v.name = none ∧ validateEmail v.email = none ∧
       validatePassword v.password = none ∧ validateAge v.age = none) := by
    unfold submitInvokesHandler
    rw [Bool.not_eq_true']
    exact hasErrors_false_iff (validateForm v)
  refine ⟨?_, ?_, ?_, ?_, ?_, ?_, ?_, ?_, ?_, ?_, ?_⟩
  · rw [hiff, validateName_none_iff, validateEmail_none_iff,
      validatePassword_none_iff, validateAge_none_iff]
  · intro h; unfold handleSubmitModel; rw [if_pos h]
  · intro h; unfold handleSubmitModel; rw [if_neg (by rw [h]; exact Bool.false_ne_true)]
  · intro h
    show validateName v.name = some _
    unfold validateName
    rw [if_pos h]
  · intro h1 h2
    show validateName v.name = some _
    unfold validateName
    rw [if_neg h1, if_pos h2]
  · intro h
    show validateEmail v.email = some _
    unfold validateEmail
    rw [if_pos h]
  · intro h1 h2
    show validateEmail v.email = some _
    unfold validateEmail
    have hm : emailMatch v.email = false := by
      rw [← Bool.not_eq_true]
      exact fun hmm => h2 ((emailMatch_iff v.email).mp hmm)
    rw [if_neg h1, if_pos (by simp [hm])]
  · intro h
    show validatePassword v.password = some _
    unfold validatePassword
    rw [if_pos h]
  · intro h1 h2
    show validatePassword v.password = some _
    unfold validatePassword
    rw [if_neg h1, if_pos h2]
  · intro h
    show validateAge v.age = some _
    rw [h]
    rfl
  · intro n h hn
    show validateAge v.age = some _
    rw [h]
    show (if n < 18 then some "Must be 18 or older" else none : Option String) = _
    rw [if_pos hn]

/-- C6 witness: a fully valid submission invokes the handler, and a
concrete underage submission renders `Must be 18 or older`. -/
theorem C6_register_validation_witness :
    submitInvokesHandler ⟨"Bob", "bob@example.com", "secret", some 25⟩ = true ∧
    (RegisterFormComponent ⟨"Ann", "ann@example.com", "secret", some 17⟩).ageError =
      some "Must be 18 or older" := by
  constructor
  · refine (C6_register_validation ⟨"Bob", "bob@example.com", "secret", some 25⟩).1.mpr
      ⟨⟨by decide, by decide⟩, ⟨by decide, ?_⟩, ⟨by decide, by decide⟩, 25, rfl, by decide⟩
    refine ⟨"bob".toList, "example".toList, "com".toList,
      by decide, by decide, by decide, by decide, by decide, by decide, by decide⟩
  · exact (C6_register_validation ⟨"Ann", "ann@example.com", "secret", some 17⟩).2.2.2.2.2.2.2.2.2.2
      17 rfl (by decide)

/-! ### Helper lemmas for the scheduling model -/

/-- A completion step does not change the cache's length. -/
theorem stepFill_length (fetch : FetchEnv) (qs : List TodoQueryDef)
    (cache : List (Option TodoItem)) (i : Nat) :
    (stepFill fetch qs cache i).length = cache.length := by
  unfold stepFill
  split <;> simp

/-- Running any schedule does not change the cache's length. -/
theorem runSchedule_aux_length (fetch : FetchEnv) (qs : List TodoQueryDef) :
    ∀ (sched : List Nat) (cache : List (Option TodoItem)),
      (sched.foldl (stepFill fetch qs) cache).length = cache.length := by
  intro sched
  induction sched with
  | nil => intro cache; rfl
  | cons j rest ih =>
    intro cache
    rw [List.foldl_cons, ih, stepFill_length]

/-- What one slot of the cache holds after a schedule has run: the
query's fetched value if its index occurred in the schedule, the
previous content otherwise — independent of where in the schedule it
occurred. -/
theorem runSchedule_aux_getElem (fetch : FetchEnv) (qs : List TodoQueryDef)
    (i : Nat) (hi : i < qs.length) :
    ∀ (sched : List Nat) (cache : List (Option TodoItem)),
      cache.length = qs.length →
      (sched.foldl (stepFill fetch qs) cache)[i]? =
        if i ∈ sched then some (runCall fetch qs[i]) else cache[i]? := by
  intro sched
  induction sched with
  | nil => intro cache _; simp
  | cons j rest ih =>
    intro cache hlen
    rw [List.foldl_cons,
      ih (stepFill fetch qs cache j) (by rw [stepFill_length]; exact hlen)]
    by_cases hij : i = j
    · subst hij
      have hq : qs[i]? = some qs[i] := List.getElem?_eq_getElem hi
      by_cases hir : i ∈ rest
      · simp [hir, List.mem_cons]
      · have hset : (stepFill fetch qs cache i)[i]? = some (runCall fetch qs[i]) := by
          unfold stepFill
          rw [hq]
          exact List.getElem?_set_eq_of_lt _ (by rw [hlen]; exact hi)
        simp [hir, List.mem_cons, hset]
    · have hstep : (stepFill fetch qs cache j)[i]? = cache[i]? := by
        unfold stepFill
        split
        · exact List.getElem?_set_ne (fun e => hij e.symm)
        · rfl
      by_cases hir : i ∈ rest
      · simp [hir, List.mem_cons]
      · simp [List.mem_cons, hij, hir, hstep]

/-- C5: the repository performs no ordering of the parallel fetches —
for every completion schedule the library may choose (any permutation
of the query indices), the results array is the same and is aligned
with the input id list: entry `i` holds the fetch of `ids[i]`. -/
theorem C5_fetch_order_independent :
    ∀ (fetch : FetchEnv) (ids : List (Option Nat)),
      (∀ sched : List Nat, sched.Perm (List.range ids.length) →
        runSchedule fetch (useTodosDefs (some ids)) sched =
          ids.map (fun id => some (fetch id))) ∧
      (∀ s₁ s₂ : List Nat, s₁.Perm (List.range ids.length) →
        s₂.Perm (List.range ids.length) →
        runSchedule fetch (useTodosDefs (some ids)) s₁ =
          runSchedule fetch (useTodosDefs (some ids)) s₂) := by
  intro fetch ids
  have hlen : (useTodosDefs (some ids)).length = ids.length := by
    simp [useTodosDefs]
  have main : ∀ sched : List Nat, sched.Perm (List.range ids.length) →
      runSchedule fetch (useTodosDefs (some ids)) sched =
        ids.map (fun id => some (fetch id)) := by
    intro sched hperm
    apply List.ext_getElem?
    intro i
    by_cases hi : i < ids.length
    · have hiq : i < (useTodosDefs (some ids)).length := by rw [hlen]; exact hi
      unfold runSchedule
      rw [runSchedule_aux_getElem fetch _ i hiq sched _ (by simp [hlen])]
      have himem : i ∈ sched := hperm.mem_iff.mpr (List.mem_range.mpr hi)
      rw [if_pos himem]
      have hqi : (useTodosDefs (some ids))[i] = mkTodoQueryDef ids[i] := by
        simp [useTodosDefs]
      rw [hqi]
      simp [runCall, mkTodoQueryDef, List.getElem?_map,
        List.getElem?_eq_getElem hi]
    · have h1 : (runSchedule fetch (useTodosDefs (some ids)) sched).length =
          ids.length := by
        unfold runSchedule
        rw [runSchedule_aux_length]
        simpa using hlen
      rw [List.getElem?_eq_none (by omega),
        List.getElem?_eq_none (by simp; omega)]
  exact ⟨main, fun s₁ s₂ h₁ h₂ => (main s₁ h₁).trans (main s₂ h₂).symm⟩

/-- C5 witness: at three ids (one of them `undefined`) and a reversed
completion schedule, the results line up with the input order. -/
theorem C5_fetch_order_independent_witness :
    runSchedule (fun o => ⟨o.getD 0, "t", true⟩)
        (useTodosDefs (some [some 1, none, some 5])) [2, 1, 0] =
      [some ⟨1, "t", true⟩, some ⟨0, "t", true⟩, some ⟨5, "t", true⟩] :=
  (C5_fetch_order_independent (fun o => ⟨o.getD 0, "t", true⟩)
    [some 1, none, some 5]).1 [2, 1, 0] (by decide)

end ReactQueryDemo
